import Mathlib

/-!
Shallow embedding of `src/contracts_ink_erc20/lib.rs`, an ink! ERC20 token
contract.

The contract storage holds a `total_supply : Balance`, a
`HashMap<AccountId, Balance>` of balances and a
`HashMap<(AccountId, AccountId), Balance>` of allowances.  We model
`AccountId` as `Nat` (an opaque equality-comparable identifier) and
`Balance` (the u128 `Balance` type of the ink! environment) as `Nat`,
with the u128 bound `2 ^ 128` made explicit where arithmetic could
overflow.  The hash maps are modelled as association lists whose
`insertKV` replaces the first occurrence of a key, matching
`HashMap::insert`, and whose `getKV` reads the first occurrence,
matching `HashMap::get`; `.unwrap_or(&0)` becomes `Option.getD _ 0`.

The ambient caller (`self.env().caller()`) is passed as an explicit
first argument to every message, and each `&mut self` message returns
the updated storage together with its `Result` value, so error paths
return the storage they left behind.
-/

abbrev AccountId := Nat
abbrev Balance := Nat

/-- The number of values of the u128 `Balance` type. -/
def U128_MOD : Nat := 2 ^ 128

/-- The contract's `Error` enum: `InsufficientBalance`, `InsufficientApproval`. -/
inductive Error where
  | InsufficientBalance
  | InsufficientApproval
deriving DecidableEq

section AssocMap

variable {K : Type} [DecidableEq K]

/-- `HashMap::get`: the value stored at the first occurrence of key `k`. -/
def getKV : List (K × Nat) → K → Option Nat
  | [], _ => none
  | (k', v') :: rest, k => if k' = k then some v' else getKV rest k

/-- `HashMap::insert`: replace the value at the first occurrence of `k`,
or append the binding if `k` is absent. -/
def insertKV : List (K × Nat) → K → Nat → List (K × Nat)
  | [], k, v => [(k, v)]
  | (k', v') :: rest, k, v =>
      if k' = k then (k, v) :: rest else (k', v') :: insertKV rest k v

end AssocMap

/-- The `#[ink(storage)]` struct `ContractsInkErc20`. -/
structure ContractsInkErc20 where
  total_supply : Balance
  balances : List (AccountId × Balance)
  allowances : List ((AccountId × AccountId) × Balance)
deriving DecidableEq

namespace ContractsInkErc20

/-- The constructor `new`: credit the whole initial supply to the caller,
leave the allowance map empty. -/
def new (init_supply : Balance) (caller : AccountId) : ContractsInkErc20 :=
  { total_supply := init_supply
    balances := insertKV [] caller init_supply
    allowances := [] }

/-- `balance_of_or_zero`: the stored balance, or zero if absent. -/
def balance_of_or_zero (s : ContractsInkErc20) (owner : AccountId) : Balance :=
  (getKV s.balances owner).getD 0

/-- The message `balance_of`. -/
def balance_of (s : ContractsInkErc20) (owner : AccountId) : Balance :=
  s.balance_of_or_zero owner

/-- `allowance_of_or_zero`: the stored allowance for `(owner, spender)`,
or zero if absent. -/
def allowance_of_or_zero (s : ContractsInkErc20) (owner spender : AccountId) : Balance :=
  (getKV s.allowances (owner, spender)).getD 0

/-- The message `allowance`. -/
def allowance (s : ContractsInkErc20) (owner spender : AccountId) : Balance :=
  s.allowance_of_or_zero owner spender

/-- The message `approve`: overwrite the allowance for `(caller, spender)`
with `value` and return `Ok(())`. -/
def approve (s : ContractsInkErc20) (caller spender : AccountId) (value : Balance) :
    ContractsInkErc20 × Except Error Unit :=
  ({ s with allowances := insertKV s.allowances (caller, spender) value }, Except.ok ())

/-- The private method `transfer_from_to`.  The source computes
`from_balance - value` (guarded by the preceding `if`, so it cannot
underflow) and `to_balance + value` on the u128 `Balance` type.

Modelled from the spec: the overflow behaviour of `to_balance + value` is
decided by the crate's build profile, which is not under `src/`; the spec
says arithmetic overflow "must abort the operation rather than wrap or
truncate", so an addition reaching `U128_MOD` is modelled as an abort
(`none`) and never as a wrapped store. -/
def transfer_from_to (s : ContractsInkErc20) (src dst : AccountId) (value : Balance) :
    Option (ContractsInkErc20 × Except Error Unit) :=
  let from_balance := s.balance_of_or_zero src
  if from_balance < value then
    some (s, Except.error Error.InsufficientBalance)
  else
    let s1 : ContractsInkErc20 :=
      { s with balances := insertKV s.balances src (from_balance - value) }
    let to_balance := s1.balance_of_or_zero dst
    if U128_MOD ≤ to_balance + value then
      none
    else
      some ({ s1 with balances := insertKV s1.balances dst (to_balance + value) },
            Except.ok ())

/-- The message `transfer`: `transfer_from_to` with the caller as source. -/
def transfer (s : ContractsInkErc20) (caller dst : AccountId) (value : Balance) :
    Option (ContractsInkErc20 × Except Error Unit) :=
  transfer_from_to s caller dst value

/-- The message `transfer_from`: check the `(src, caller)` allowance, run
`transfer_from_to` (the `?` operator propagates its error together with the
storage it left), then store the decremented allowance. -/
def transfer_from (s : ContractsInkErc20) (caller src dst : AccountId) (value : Balance) :
    Option (ContractsInkErc20 × Except Error Unit) :=
  let al := s.allowance_of_or_zero src caller
  if al < value then
    some (s, Except.error Error.InsufficientApproval)
  else
    match transfer_from_to s src dst value with
    | none => none
    | some (s1, Except.error e) => some (s1, Except.error e)
    | some (s1, Except.ok _) =>
        some ({ s1 with allowances := insertKV s1.allowances (src, caller) (al - value) },
              Except.ok ())

/-- The intermediate `to_balance` read by `transfer_from_to` after the
debit of `src` has been stored. -/
def midTo (s : ContractsInkErc20) (src dst : AccountId) (value : Balance) : Balance :=
  balance_of_or_zero
    { s with balances := insertKV s.balances src (s.balance_of_or_zero src - value) } dst

/-- The states reachable from `new` by any finite sequence of `approve`,
`transfer` and `transfer_from` calls (a failing call returns the storage
unchanged, so error results are included as steps).  All `Balance`
arguments are u128 values, hence below `U128_MOD`. -/
inductive Reachable : ContractsInkErc20 → Prop where
  | init (init_supply : Balance) (caller : AccountId) (h : init_supply < U128_MOD) :
      Reachable (new init_supply caller)
  | approve_step (s : ContractsInkErc20) (caller spender : AccountId) (value : Balance)
      (hv : value < U128_MOD) (hs : Reachable s) :
      Reachable (s.approve caller spender value).1
  | transfer_step (s s' : ContractsInkErc20) (caller dst : AccountId) (value : Balance)
      (r : Except Error Unit) (hv : value < U128_MOD) (hs : Reachable s)
      (h : s.transfer caller dst value = some (s', r)) :
      Reachable s'
  | transfer_from_step (s s' : ContractsInkErc20) (caller src dst : AccountId)
      (value : Balance) (r : Except Error Unit) (hv : value < U128_MOD) (hs : Reachable s)
      (h : s.transfer_from caller src dst value = some (s', r)) :
      Reachable s'

end ContractsInkErc20

section AssocMapLemmas

variable {K : Type} [DecidableEq K]

theorem getKV_insertKV_self (m : List (K × Nat)) (k : K) (v : Nat) :
    getKV (insertKV m k v) k = some v := by
  induction m with
  | nil => simp [insertKV, getKV]
  | cons p rest ih =>
    obtain ⟨k', v'⟩ := p
    by_cases h : k' = k
    · simp [insertKV, getKV, h]
    · simp [insertKV, getKV, h, ih]

theorem getKV_insertKV_ne (m : List (K × Nat)) (k a : K) (v : Nat) (h : a ≠ k) :
    getKV (insertKV m k v) a = getKV m a := by
  induction m with
  | nil => simp [insertKV, getKV, Ne.symm h]
  | cons p rest ih =>
    obtain ⟨k', v'⟩ := p
    by_cases hk : k' = k
    · subst hk
      simp [insertKV, getKV, Ne.symm h]
    · simp [insertKV, getKV, hk, ih]

theorem isSome_getKV_insertKV (m : List (K × Nat)) (k : K) (v : Nat) (a : K)
    (h : (getKV m a).isSome) : (getKV (insertKV m k v) a).isSome := by
  by_cases ha : a = k
  · subst ha
    simp [getKV_insertKV_self]
  · rw [getKV_insertKV_ne m k a v ha]
    exact h

theorem isSome_getKV_insertKV_self (m : List (K × Nat)) (k : K) (v : Nat) :
    (getKV (insertKV m k v) k).isSome := by
  simp [getKV_insertKV_self]

theorem getD_eq_zero_of_not_isSome (o : Option Nat) (h : ¬ o.isSome) : o.getD 0 = 0 := by
  cases o with
  | none => rfl
  | some v => simp at h

/-- Reading after `insertKV` is `Function.update` of reading before. -/
theorem getD_insertKV (m : List (K × Nat)) (k : K) (v : Nat) (a : K) :
    (getKV (insertKV m k v) a).getD 0
      = Function.update (fun x => (getKV m x).getD 0) k v a := by
  by_cases h : a = k
  · subst h
    simp [getKV_insertKV_self]
  · simp [Function.update_apply, h, getKV_insertKV_ne m k a v h]

end AssocMapLemmas

namespace ContractsInkErc20

/-- The intermediate `to_balance` is the source balance less `value` for a
self-transfer, and the untouched destination balance otherwise. -/
theorem midTo_eq (s : ContractsInkErc20) (src dst : AccountId) (v : Balance) :
    midTo s src dst v
      = if dst = src then s.balance_of_or_zero src - v else s.balance_of_or_zero dst := by
  unfold midTo
  simp only [balance_of_or_zero]
  rw [getD_insertKV]
  simp [Function.update_apply]

/-- An error result of `transfer_from_to` is always `InsufficientBalance`,
happens exactly when the source balance is below `value`, and returns the
storage unchanged. -/
theorem transfer_from_to_error (s s' : ContractsInkErc20) (src dst : AccountId)
    (v : Balance) (e : Error)
    (h : transfer_from_to s src dst v = some (s', Except.error e)) :
    s' = s ∧ e = Error.InsufficientBalance ∧ s.balance_of_or_zero src < v := by
  simp only [transfer_from_to] at h
  split_ifs at h with h1 h2
  · simp only [Option.some.injEq, Prod.mk.injEq, Except.error.injEq] at h
    exact ⟨h.1.symm, h.2.symm, h1⟩
  · simp at h

/-- `transfer_from_to` fails with `InsufficientBalance` whenever the source
balance is below `value`, leaving the storage unchanged. -/
theorem transfer_from_to_error_of_lt (s : ContractsInkErc20) (src dst : AccountId)
    (v : Balance) (h : s.balance_of_or_zero src < v) :
    transfer_from_to s src dst v = some (s, Except.error Error.InsufficientBalance) := by
  simp only [transfer_from_to]
  rw [if_pos h]

/-- Characterization of a successful `transfer_from_to`: the guard passed,
the credited balance stayed below `U128_MOD`, and the new storage is the
double insertion. -/
theorem transfer_from_to_ok (s s' : ContractsInkErc20) (src dst : AccountId) (v : Balance)
    (h : transfer_from_to s src dst v = some (s', Except.ok ())) :
    v ≤ s.balance_of_or_zero src ∧ midTo s src dst v + v < U128_MOD ∧
      s' = { s with balances :=
              (insertKV (insertKV s.balances src (s.balance_of_or_zero src - v)) dst
                (midTo s src dst v + v)) } := by
  simp only [transfer_from_to, midTo] at h ⊢
  split_ifs at h with h1 h2
  · simp at h
  · simp only [Option.some.injEq, Prod.mk.injEq] at h
    exact ⟨Nat.le_of_not_lt h1, Nat.lt_of_not_le h2, h.1.symm⟩

/-- `transfer_from_to` returns `none` only by the overflow abort, so it
always returns `some` when the credited balance stays below `U128_MOD`. -/
theorem transfer_from_to_ne_none (s : ContractsInkErc20) (src dst : AccountId)
    (v : Balance) (hov : midTo s src dst v + v < U128_MOD) :
    transfer_from_to s src dst v ≠ none := by
  simp only [transfer_from_to, midTo] at hov ⊢
  split_ifs with h1 h2
  · simp
  · exact absurd h2 (Nat.not_le_of_lt hov)
  · simp

/-- A successful `transfer_from_to` reads, pointwise, as two
`Function.update`s of the balance view. -/
theorem balance_of_or_zero_tfto_ok (s s' : ContractsInkErc20) (src dst : AccountId)
    (v : Balance) (h : transfer_from_to s src dst v = some (s', Except.ok ())) (a : AccountId) :
    s'.balance_of_or_zero a
      = Function.update (Function.update s.balance_of_or_zero src
          (s.balance_of_or_zero src - v)) dst (midTo s src dst v + v) a := by
  obtain ⟨-, -, rfl⟩ := transfer_from_to_ok s s' src dst v h
  by_cases hd : a = dst
  · subst hd
    simp [balance_of_or_zero, getKV_insertKV_self, Function.update_apply]
  · simp only [balance_of_or_zero]
    rw [Function.update_apply]
    rw [if_neg hd]
    show (getKV (insertKV (insertKV s.balances src (s.balance_of_or_zero src - v)) dst
      (midTo s src dst v + v)) a).getD 0 = _
    rw [getKV_insertKV_ne _ dst a _ hd]
    by_cases hs : a = src
    · subst hs
      simp [getKV_insertKV_self, Function.update_apply, balance_of_or_zero]
    · rw [getKV_insertKV_ne _ src a _ hs]
      simp [Function.update_apply, hs, balance_of_or_zero]

/-- A successful `transfer_from_to` changes neither `total_supply` nor
the allowance map. -/
theorem tfto_ok_supply_allowances (s s' : ContractsInkErc20) (src dst : AccountId)
    (v : Balance) (h : transfer_from_to s src dst v = some (s', Except.ok ())) :
    s'.total_supply = s.total_supply ∧ s'.allowances = s.allowances := by
  obtain ⟨-, -, rfl⟩ := transfer_from_to_ok s s' src dst v h
  exact ⟨rfl, rfl⟩

/-- A successful `transfer_from_to` keeps every stored balance key and
stores keys for both endpoints. -/
theorem tfto_ok_keys (s s' : ContractsInkErc20) (src dst : AccountId) (v : Balance)
    (h : transfer_from_to s src dst v = some (s', Except.ok ())) :
    (∀ a, (getKV s.balances a).isSome → (getKV s'.balances a).isSome) ∧
      (getKV s'.balances src).isSome ∧ (getKV s'.balances dst).isSome := by
  obtain ⟨-, -, rfl⟩ := transfer_from_to_ok s s' src dst v h
  refine ⟨fun a ha => ?_, ?_, isSome_getKV_insertKV_self _ _ _⟩
  · exact isSome_getKV_insertKV _ _ _ _ (isSome_getKV_insertKV _ _ _ _ ha)
  · exact isSome_getKV_insertKV _ _ _ _ (isSome_getKV_insertKV_self _ _ _)

/-- A successful `transfer_from` decomposes into the allowance guard, a
successful `transfer_from_to`, and the allowance decrement. -/
theorem transfer_from_ok (s s' : ContractsInkErc20) (caller src dst : AccountId)
    (v : Balance)
    (h : transfer_from s caller src dst v = some (s', Except.ok ())) :
    ∃ s1, transfer_from_to s src dst v = some (s1, Except.ok ()) ∧
      v ≤ s.allowance_of_or_zero src caller ∧
      s' = { s1 with allowances :=
              (insertKV s1.allowances (src, caller)
                (s.allowance_of_or_zero src caller - v)) } := by
  simp only [transfer_from] at h
  split_ifs at h with h1
  · simp at h
  · cases htf : transfer_from_to s src dst v with
    | none =>
      rw [htf] at h
      simp at h
    | some p =>
      obtain ⟨s1, r1⟩ := p
      rw [htf] at h
      cases r1 with
      | error e => simp at h
      | ok u =>
        cases u
        simp only [Option.some.injEq, Prod.mk.injEq, and_true] at h
        exact ⟨s1, rfl, Nat.le_of_not_lt h1, h.symm⟩

/-- An error result of `transfer_from` leaves the storage unchanged and is
either the allowance guard firing or the propagated balance failure. -/
theorem transfer_from_error (s s' : ContractsInkErc20) (caller src dst : AccountId)
    (v : Balance) (e : Error)
    (h : transfer_from s caller src dst v = some (s', Except.error e)) :
    s' = s ∧
      ((e = Error.InsufficientApproval ∧ s.allowance_of_or_zero src caller < v) ∨
        (e = Error.InsufficientBalance ∧ v ≤ s.allowance_of_or_zero src caller ∧
          s.balance_of_or_zero src < v)) := by
  simp only [transfer_from] at h
  split_ifs at h with h1
  · simp only [Option.some.injEq, Prod.mk.injEq, Except.error.injEq] at h
    exact ⟨h.1.symm, Or.inl ⟨h.2.symm, h1⟩⟩
  · cases htf : transfer_from_to s src dst v with
    | none =>
      rw [htf] at h
      simp at h
    | some p =>
      obtain ⟨s1, r1⟩ := p
      rw [htf] at h
      cases r1 with
      | error e' =>
        simp only [Option.some.injEq, Prod.mk.injEq, Except.error.injEq] at h
        obtain ⟨hs1, he⟩ := h
        obtain ⟨hss, heb, hlt⟩ := transfer_from_to_error s s1 src dst v e' htf
        subst hs1
        subst he
        exact ⟨hss, Or.inr ⟨heb, Nat.le_of_not_lt h1, hlt⟩⟩
      | ok u =>
        cases u
        simp at h

/-- The allowance guard of `transfer_from` fires exactly on a strictly
smaller stored allowance, returning the storage unchanged. -/
theorem transfer_from_error_of_lt (s : ContractsInkErc20) (caller src dst : AccountId)
    (v : Balance) (h : s.allowance_of_or_zero src caller < v) :
    transfer_from s caller src dst v = some (s, Except.error Error.InsufficientApproval) := by
  simp only [transfer_from]
  rw [if_pos h]

/-- Debiting `src` and crediting `dst` with the same amount preserves a
finite sum containing both accounts. -/
theorem sum_update_debit_credit (g : AccountId → Nat) (A : Finset AccountId)
    (src dst : AccountId) (v : Nat) (hf : src ∈ A) (ht : dst ∈ A) (hv : v ≤ g src) :
    ∑ a ∈ A, Function.update (Function.update g src (g src - v)) dst
        ((if dst = src then g src - v else g dst) + v) a = ∑ a ∈ A, g a := by
  by_cases hds : dst = src
  · subst hds
    rw [if_pos rfl, Function.update_idem, Nat.sub_add_cancel hv, Function.update_eq_self]
  · rw [if_neg hds]
    rw [Finset.sum_update_of_mem ht, ← Finset.erase_eq]
    have hf' : src ∈ A.erase dst := Finset.mem_erase.2 ⟨fun hh => hds hh.symm, hf⟩
    rw [Finset.sum_update_of_mem hf', ← Finset.erase_eq]
    rw [← Finset.add_sum_erase A g ht, ← Finset.add_sum_erase (A.erase dst) g hf']
    omega

/-- A successful `transfer_from_to` preserves the sum of balances over any
finite account set containing both endpoints. -/
theorem sum_balance_tfto_ok (s s' : ContractsInkErc20) (src dst : AccountId)
    (v : Balance) (h : transfer_from_to s src dst v = some (s', Except.ok ()))
    (A : Finset AccountId) (hf : src ∈ A) (ht : dst ∈ A) :
    ∑ a ∈ A, s'.balance_of_or_zero a = ∑ a ∈ A, s.balance_of_or_zero a := by
  obtain ⟨hv, -, -⟩ := transfer_from_to_ok s s' src dst v h
  have hb := balance_of_or_zero_tfto_ok s s' src dst v h
  calc ∑ a ∈ A, s'.balance_of_or_zero a
      = ∑ a ∈ A, Function.update (Function.update s.balance_of_or_zero src
          (s.balance_of_or_zero src - v)) dst (midTo s src dst v + v) a :=
        Finset.sum_congr rfl fun a _ => hb a
    _ = ∑ a ∈ A, s.balance_of_or_zero a := by
        rw [midTo_eq]
        exact sum_update_debit_credit s.balance_of_or_zero A src dst v hf ht hv

/-- The balance view of a fresh ledger: the whole supply at the creator,
zero elsewhere. -/
theorem balance_of_or_zero_new (init_supply : Balance) (caller : AccountId) (a : AccountId) :
    (new init_supply caller).balance_of_or_zero a
      = if caller = a then init_supply else 0 := by
  by_cases h : caller = a
  · simp [new, balance_of_or_zero, insertKV, getKV, h]
  · simp [new, balance_of_or_zero, insertKV, getKV, h]

/-- C1: every state reachable from `new` by `approve`, `transfer` and
`transfer_from` calls has its balances summing to `total_supply`, the sum
taken over any finite account set covering all stored balance keys. -/
theorem reachable_sum_balance_eq_total_supply (s : ContractsInkErc20)
    (hs : Reachable s) (A : Finset AccountId)
    (hA : ∀ a, (getKV s.balances a).isSome → a ∈ A) :
    ∑ a ∈ A, s.balance_of a = s.total_supply := by
  induction hs generalizing A with
  | init init_supply caller h =>
    have hc : caller ∈ A := by
      apply hA
      simp [new, insertKV, getKV]
    calc ∑ a ∈ A, (new init_supply caller).balance_of a
        = ∑ a ∈ A, if caller = a then init_supply else 0 :=
          Finset.sum_congr rfl fun a _ => balance_of_or_zero_new init_supply caller a
      _ = init_supply := by rw [Finset.sum_ite_eq A caller fun _ => init_supply, if_pos hc]
      _ = (new init_supply caller).total_supply := rfl
  | approve_step s caller spender value hv hs ih =>
    exact ih A hA
  | transfer_step s s' caller dst value r hv hs h ih =>
    cases r with
    | error e =>
      obtain ⟨rfl, -, -⟩ := transfer_from_to_error s s' caller dst value e h
      exact ih A hA
    | ok u =>
      cases u
      obtain ⟨hkeys, hcal, hdst⟩ := tfto_ok_keys s s' caller dst value h
      have hAs : ∀ a, (getKV s.balances a).isSome → a ∈ A := fun a ha => hA a (hkeys a ha)
      obtain ⟨hts, -⟩ := tfto_ok_supply_allowances s s' caller dst value h
      rw [show (∑ a ∈ A, s'.balance_of a) = ∑ a ∈ A, s'.balance_of_or_zero a from rfl]
      rw [sum_balance_tfto_ok s s' caller dst value h A (hA caller hcal) (hA dst hdst)]
      rw [hts]
      exact ih A hAs
  | transfer_from_step s s' caller src dst value r hv hs h ih =>
    cases r with
    | error e =>
      obtain ⟨rfl, -⟩ := transfer_from_error s s' caller src dst value e h
      exact ih A hA
    | ok u =>
      cases u
      obtain ⟨s1, htf, hal, rfl⟩ := transfer_from_ok s s' caller src dst value h
      obtain ⟨hkeys, hsrc, hdst⟩ := tfto_ok_keys s s1 src dst value htf
      have hA1 : ∀ a, (getKV s1.balances a).isSome → a ∈ A := fun a ha => hA a ha
      have hAs : ∀ a, (getKV s.balances a).isSome → a ∈ A := fun a ha => hA1 a (hkeys a ha)
      obtain ⟨hts, -⟩ := tfto_ok_supply_allowances s s1 src dst value htf
      show ∑ a ∈ A, s1.balance_of_or_zero a = s1.total_supply
      rw [sum_balance_tfto_ok s s1 src dst value htf A (hA1 src hsrc) (hA1 dst hdst)]
      rw [hts]
      exact ih A hAs

/-- `transfer_from_to` succeeds whenever the balance guard passes and the
credit does not overflow. -/
theorem transfer_from_to_isSome_ok (s : ContractsInkErc20) (src dst : AccountId)
    (v : Balance) (hguard : ¬ s.balance_of_or_zero src < v)
    (hov : midTo s src dst v + v < U128_MOD) :
    ∃ s1, transfer_from_to s src dst v = some (s1, Except.ok ()) := by
  simp only [transfer_from_to, midTo] at hov ⊢
  rw [if_neg hguard, if_neg (Nat.not_le_of_lt hov)]
  exact ⟨_, rfl⟩

/-- A zero-amount `transfer_from_to` success changes no balance view. -/
theorem balance_of_or_zero_tfto_zero (s s1 : ContractsInkErc20) (src dst : AccountId)
    (h : transfer_from_to s src dst 0 = some (s1, Except.ok ())) (a : AccountId) :
    s1.balance_of_or_zero a = s.balance_of_or_zero a := by
  rw [balance_of_or_zero_tfto_ok s s1 src dst 0 h a, midTo_eq]
  by_cases had : a = dst
  · subst had
    by_cases hds : a = src
    · subst hds
      simp [Function.update_apply]
    · simp [Function.update_apply, hds, Ne.symm hds]
  · rw [Function.update_apply, if_neg had]
    by_cases has : a = src
    · subst has
      simp [Function.update_apply]
    · rw [Function.update_apply, if_neg has]

/-- The allowance view after an allowance insertion. -/
theorem allowance_of_or_zero_insert (s : ContractsInkErc20)
    (m : List ((AccountId × AccountId) × Balance)) (k : AccountId × AccountId)
    (v : Balance) (o sp : AccountId) :
    ({ s with allowances := insertKV m k v } : ContractsInkErc20).allowance_of_or_zero o sp
      = if (o, sp) = k then v else (getKV m (o, sp)).getD 0 := by
  by_cases h : (o, sp) = k
  · subst h
    simp [allowance_of_or_zero, getKV_insertKV_self]
  · rw [if_neg h]
    simp only [allowance_of_or_zero]
    rw [getKV_insertKV_ne m k (o, sp) v h]

/-- C2: when the recipient's running balance plus `value` would exceed the
u128 maximum, `transfer_from_to` (hence `transfer` and `transfer_from`)
aborts and returns no wrapped state; on success the stored recipient
balance is the exact sum, strictly below `U128_MOD`, never a value reduced
modulo `2 ^ 128`. -/
theorem overflow_aborts_never_wraps (s : ContractsInkErc20) (src dst : AccountId)
    (v : Balance) (hv : v ≤ s.balance_of_or_zero src) :
    (U128_MOD ≤ midTo s src dst v + v → transfer_from_to s src dst v = none) ∧
    (∀ s', transfer_from_to s src dst v = some (s', Except.ok ()) →
        s'.balance_of_or_zero dst = midTo s src dst v + v ∧
          midTo s src dst v + v < U128_MOD) := by
  constructor
  · intro hov
    simp only [transfer_from_to, midTo] at hov ⊢
    rw [if_neg (Nat.not_lt.2 hv), if_pos hov]
  · intro s' h
    obtain ⟨-, hlt, -⟩ := transfer_from_to_ok s s' src dst v h
    refine ⟨?_, hlt⟩
    rw [balance_of_or_zero_tfto_ok s s' src dst v h dst]
    simp [Function.update_apply]

/-- C3: a `transfer_from` call that returns an error (of either kind)
leaves the storage byte-for-byte unchanged: every balance and every
allowance entry, including the `(src, caller)` allowance, is as before. -/
theorem transfer_from_error_state_unchanged (s s' : ContractsInkErc20)
    (caller src dst : AccountId) (v : Balance) (e : Error)
    (h : transfer_from s caller src dst v = some (s', Except.error e)) :
    s' = s :=
  (transfer_from_error s s' caller src dst v e h).1

/-- C4: `transfer_from` fails with `InsufficientApproval` exactly when the
stored `(src, caller)` allowance is strictly below `value` (mutating
nothing), and on success the stored allowance drops by exactly `value`,
never below zero. -/
theorem transfer_from_allowance_spec (s : ContractsInkErc20)
    (caller src dst : AccountId) (v : Balance) :
    ((∃ s', transfer_from s caller src dst v
          = some (s', Except.error Error.InsufficientApproval))
        ↔ s.allowance_of_or_zero src caller < v) ∧
    (s.allowance_of_or_zero src caller < v →
        transfer_from s caller src dst v
          = some (s, Except.error Error.InsufficientApproval)) ∧
    (∀ s', transfer_from s caller src dst v = some (s', Except.ok ()) →
        v ≤ s.allowance_of_or_zero src caller ∧
        s'.allowance_of_or_zero src caller
          = s.allowance_of_or_zero src caller - v) := by
  refine ⟨⟨?_, ?_⟩, ?_, ?_⟩
  · rintro ⟨s', h⟩
    obtain ⟨-, hor⟩ := transfer_from_error s s' caller src dst v
      Error.InsufficientApproval h
    rcases hor with ⟨-, hlt⟩ | ⟨habs, -⟩
    · exact hlt
    · exact absurd habs (by simp)
  · intro hlt
    exact ⟨s, transfer_from_error_of_lt s caller src dst v hlt⟩
  · intro hlt
    exact transfer_from_error_of_lt s caller src dst v hlt
  · intro s' h
    obtain ⟨s1, htf, hle, rfl⟩ := transfer_from_ok s s' caller src dst v h
    obtain ⟨-, hallow⟩ := tfto_ok_supply_allowances s s1 src dst v htf
    refine ⟨hle, ?_⟩
    rw [allowance_of_or_zero_insert s1 s1.allowances (src, caller)
      (s.allowance_of_or_zero src caller - v) src caller]
    rw [if_pos rfl]

/-- C5: for distinct accounts, the internal transfer errs with
`InsufficientBalance` exactly when the source balance is below `value`
(mutating nothing), on success moves exactly `value` from `src` to `dst`,
and both `transfer` and `transfer_from` propagate the error unchanged. -/
theorem transfer_balance_spec (s : ContractsInkErc20) (src dst : AccountId)
    (v : Balance) (hne : src ≠ dst) :
    ((∃ s' e, transfer_from_to s src dst v = some (s', Except.error e))
        ↔ s.balance_of_or_zero src < v) ∧
    (s.balance_of_or_zero src < v →
        transfer_from_to s src dst v
          = some (s, Except.error Error.InsufficientBalance)) ∧
    (∀ s' e, transfer_from_to s src dst v = some (s', Except.error e) →
        s' = s ∧ e = Error.InsufficientBalance) ∧
    (∀ s', transfer_from_to s src dst v = some (s', Except.ok ()) →
        v ≤ s.balance_of_or_zero src ∧
        s'.balance_of_or_zero src = s.balance_of_or_zero src - v ∧
        s'.balance_of_or_zero dst = s.balance_of_or_zero dst + v) ∧
    (∀ caller, transfer s caller dst v = transfer_from_to s caller dst v) ∧
    (∀ caller s' e, ¬ s.allowance_of_or_zero src caller < v →
        transfer_from_to s src dst v = some (s', Except.error e) →
        transfer_from s caller src dst v = some (s', Except.error e)) := by
  refine ⟨⟨?_, ?_⟩, ?_, ?_, ?_, ?_, ?_⟩
  · rintro ⟨s', e, h⟩
    exact (transfer_from_to_error s s' src dst v e h).2.2
  · intro hlt
    exact ⟨s, Error.InsufficientBalance, transfer_from_to_error_of_lt s src dst v hlt⟩
  · intro hlt
    exact transfer_from_to_error_of_lt s src dst v hlt
  · intro s' e h
    obtain ⟨hss, heb, -⟩ := transfer_from_to_error s s' src dst v e h
    exact ⟨hss, heb⟩
  · intro s' h
    obtain ⟨hle, -, -⟩ := transfer_from_to_ok s s' src dst v h
    refine ⟨hle, ?_, ?_⟩
    · rw [balance_of_or_zero_tfto_ok s s' src dst v h src]
      rw [Function.update_apply, if_neg hne]
      simp [Function.update_apply]
    · rw [balance_of_or_zero_tfto_ok s s' src dst v h dst]
      rw [midTo_eq, if_neg (Ne.symm hne)]
      simp [Function.update_apply]
  · intro caller
    rfl
  · intro caller s' e hal h
    simp only [transfer_from]
    rw [if_neg hal, h]

/-- C6: `approve` always returns `Ok`, overwrites the `(caller, spender)`
allowance with `value` regardless of its previous value, and changes no
balance, no other allowance entry, and not the total supply. -/
theorem approve_spec (s : ContractsInkErc20) (caller spender : AccountId) (v : Balance) :
    (s.approve caller spender v).2 = Except.ok () ∧
    (s.approve caller spender v).1.allowance_of_or_zero caller spender = v ∧
    (∀ a, (s.approve caller spender v).1.balance_of_or_zero a
        = s.balance_of_or_zero a) ∧
    (∀ o sp, (o, sp) ≠ (caller, spender) →
        (s.approve caller spender v).1.allowance_of_or_zero o sp
          = s.allowance_of_or_zero o sp) ∧
    (s.approve caller spender v).1.total_supply = s.total_supply := by
  refine ⟨rfl, ?_, fun a => rfl, fun o sp h => ?_, rfl⟩
  · simp only [approve, allowance_of_or_zero]
    rw [getKV_insertKV_self]
    rfl
  · simp only [approve, allowance_of_or_zero]
    rw [getKV_insertKV_ne s.allowances (caller, spender) (o, sp) v h]

/-- C7: a funded self-transfer returns `Ok` and leaves every observable
value — the account's balance, every other balance, every allowance, and
the total supply — unchanged, despite the two balance-map writes. -/
theorem self_transfer_noop (s : ContractsInkErc20) (acct : AccountId) (v : Balance)
    (hv : v ≤ s.balance_of acct) (hb : s.balance_of acct < U128_MOD) :
    ∃ s', s.transfer acct acct v = some (s', Except.ok ()) ∧
      (∀ a, s'.balance_of a = s.balance_of a) ∧
      (∀ o sp, s'.allowance o sp = s.allowance o sp) ∧
      s'.total_supply = s.total_supply := by
  have hv' : v ≤ s.balance_of_or_zero acct := hv
  have hb' : s.balance_of_or_zero acct < U128_MOD := hb
  have hmid : midTo s acct acct v = s.balance_of_or_zero acct - v := by
    rw [midTo_eq, if_pos rfl]
  have hov : midTo s acct acct v + v < U128_MOD := by
    rw [hmid, Nat.sub_add_cancel hv']
    exact hb'
  obtain ⟨s1, h1⟩ := transfer_from_to_isSome_ok s acct acct v (Nat.not_lt.2 hv') hov
  refine ⟨s1, h1, ?_, ?_, (tfto_ok_supply_allowances s s1 acct acct v h1).1⟩
  · intro a
    show s1.balance_of_or_zero a = s.balance_of_or_zero a
    rw [balance_of_or_zero_tfto_ok s s1 acct acct v h1 a, hmid,
        Nat.sub_add_cancel hv', Function.update_idem, Function.update_eq_self]
  · intro o sp
    show s1.allowance_of_or_zero o sp = s.allowance_of_or_zero o sp
    simp only [allowance_of_or_zero]
    rw [(tfto_ok_supply_allowances s s1 acct acct v h1).2]

/-- C8: `new` fixes the total supply, credits the whole supply to the
creator, leaves every other account at balance zero and every pair at
allowance zero, and has no failure mode. -/
theorem new_spec (init_supply : Balance) (creator : AccountId) :
    (new init_supply creator).total_supply = init_supply ∧
    (new init_supply creator).balance_of creator = init_supply ∧
    (∀ a, a ≠ creator → (new init_supply creator).balance_of a = 0) ∧
    (∀ o sp, (new init_supply creator).allowance o sp = 0) := by
  refine ⟨rfl, ?_, fun a ha => ?_, fun o sp => rfl⟩
  · show (new init_supply creator).balance_of_or_zero creator = init_supply
    rw [balance_of_or_zero_new, if_pos rfl]
  · show (new init_supply creator).balance_of_or_zero a = 0
    rw [balance_of_or_zero_new, if_neg (Ne.symm ha)]

/-- C9: no single operation step — `approve`, `transfer` or
`transfer_from`, succeeding or failing — changes `total_supply`. -/
theorem total_supply_constant (s : ContractsInkErc20) :
    (∀ caller spender v, (s.approve caller spender v).1.total_supply = s.total_supply) ∧
    (∀ caller dst v s' r, s.transfer caller dst v = some (s', r) →
        s'.total_supply = s.total_supply) ∧
    (∀ caller src dst v s' r, s.transfer_from caller src dst v = some (s', r) →
        s'.total_supply = s.total_supply) := by
  refine ⟨fun caller spender v => rfl, ?_, ?_⟩
  · intro caller dst v s' r h
    cases r with
    | error e =>
      obtain ⟨rfl, -, -⟩ := transfer_from_to_error s s' caller dst v e h
      rfl
    | ok u =>
      cases u
      exact (tfto_ok_supply_allowances s s' caller dst v h).1
  · intro caller src dst v s' r h
    cases r with
    | error e =>
      obtain ⟨rfl, -⟩ := transfer_from_error s s' caller src dst v e h
      rfl
    | ok u =>
      cases u
      obtain ⟨s1, htf, -, rfl⟩ := transfer_from_ok s s' caller src dst v h
      exact (tfto_ok_supply_allowances s s1 src dst v htf).1

/-- C10: a zero-amount `transfer` succeeds even from a zero or absent
balance, and a zero-amount `transfer_from` succeeds even with a zero or
never-set allowance; both leave every observable balance and allowance
value, and the total supply, unchanged. -/
theorem zero_amount_transfer_ok (s : ContractsInkErc20) (caller src dst : AccountId)
    (hWF : ∀ a, s.balance_of_or_zero a < U128_MOD) :
    (∃ s', s.transfer caller dst 0 = some (s', Except.ok ()) ∧
        (∀ a, s'.balance_of a = s.balance_of a) ∧
        (∀ o sp, s'.allowance o sp = s.allowance o sp) ∧
        s'.total_supply = s.total_supply) ∧
    (∃ s', s.transfer_from caller src dst 0 = some (s', Except.ok ()) ∧
        (∀ a, s'.balance_of a = s.balance_of a) ∧
        (∀ o sp, s'.allowance o sp = s.allowance o sp) ∧
        s'.total_supply = s.total_supply) := by
  have hmid : ∀ x, midTo s x dst 0 + 0 < U128_MOD := by
    intro x
    rw [midTo_eq, Nat.add_zero]
    split_ifs with h
    · exact Nat.lt_of_le_of_lt (Nat.sub_le _ _) (hWF x)
    · exact hWF dst
  constructor
  · obtain ⟨s1, h1⟩ :=
      transfer_from_to_isSome_ok s caller dst 0 (Nat.not_lt_zero _) (hmid caller)
    refine ⟨s1, h1, ?_, ?_, (tfto_ok_supply_allowances s s1 caller dst 0 h1).1⟩
    · intro a
      exact balance_of_or_zero_tfto_zero s s1 caller dst h1 a
    · intro o sp
      show s1.allowance_of_or_zero o sp = s.allowance_of_or_zero o sp
      simp only [allowance_of_or_zero]
      rw [(tfto_ok_supply_allowances s s1 caller dst 0 h1).2]
  · obtain ⟨s1, h1⟩ :=
      transfer_from_to_isSome_ok s src dst 0 (Nat.not_lt_zero _) (hmid src)
    have hallow := (tfto_ok_supply_allowances s s1 src dst 0 h1).2
    have hcall : s.transfer_from caller src dst 0
        = some ({ s1 with allowances := (insertKV s1.allowances (src, caller)
                    (s.allowance_of_or_zero src caller - 0)) }, Except.ok ()) := by
      simp only [transfer_from]
      rw [if_neg (Nat.not_lt_zero _), h1]
    refine ⟨_, hcall, ?_, ?_, (tfto_ok_supply_allowances s s1 src dst 0 h1).1⟩
    · intro a
      exact balance_of_or_zero_tfto_zero s s1 src dst h1 a
    · intro o sp
      show ({ s1 with allowances := (insertKV s1.allowances (src, caller)
          (s.allowance_of_or_zero src caller - 0)) } :
            ContractsInkErc20).allowance_of_or_zero o sp = s.allowance_of_or_zero o sp
      rw [allowance_of_or_zero_insert s1 s1.allowances (src, caller)
        (s.allowance_of_or_zero src caller - 0) o sp]
      by_cases hk : (o, sp) = (src, caller)
      · rw [if_pos hk, Nat.sub_zero]
        have ho : o = src := congrArg Prod.fst hk
        have hsp : sp = caller := congrArg Prod.snd hk
        subst ho
        subst hsp
        rfl
      · rw [if_neg hk, hallow]
        rfl

/-- Witness for C1: the freshly created ledger `new 100 1` sums to its
total supply over the account set `{1}`. -/
theorem reachable_sum_balance_witness :
    ∑ a ∈ ({1} : Finset AccountId), (new 100 1).balance_of a
      = (new 100 1).total_supply := by
  apply reachable_sum_balance_eq_total_supply (new 100 1)
    (Reachable.init 100 1 (by decide))
  intro a ha
  by_cases h1a : (1 : AccountId) = a
  · rw [← h1a]
    simp
  · simp [new, insertKV, getKV, h1a] at ha

/-- Witness for C2: with two accounts at the u128 maximum, a 1-token
transfer aborts instead of wrapping. -/
theorem overflow_aborts_witness :
    transfer_from_to
      ({ total_supply := 0,
         balances := [(1, U128_MOD - 1), (2, U128_MOD - 1)], allowances := [] } :
        ContractsInkErc20) 1 2 1 = none :=
  (overflow_aborts_never_wraps
    { total_supply := 0,
      balances := [(1, U128_MOD - 1), (2, U128_MOD - 1)], allowances := [] }
    1 2 1 (by decide)).1 (by decide)

/-- Witness for C3: an allowance-insufficient `transfer_from` on a fresh
ledger returns the storage unchanged. -/
theorem transfer_from_error_unchanged_witness :
    (new 100 1 : ContractsInkErc20) = new 100 1 :=
  transfer_from_error_state_unchanged (new 100 1) (new 100 1) 2 1 0 5
    Error.InsufficientApproval rfl

/-- Witness for C4: a 5-token `transfer_from` with a zero allowance fails
with `InsufficientApproval` and an unchanged storage. -/
theorem transfer_from_allowance_witness :
    transfer_from (new 100 1) 2 1 0 5
      = some (new 100 1, Except.error Error.InsufficientApproval) :=
  (transfer_from_allowance_spec (new 100 1) 2 1 0 5).2.1 (by decide)

/-- Witness for C5: a 200-token transfer out of a 100-token balance fails
with `InsufficientBalance` and an unchanged storage. -/
theorem transfer_balance_witness :
    transfer_from_to (new 100 1) 1 0 200
      = some (new 100 1, Except.error Error.InsufficientBalance) :=
  (transfer_balance_spec (new 100 1) 1 0 200 (by decide)).2.1 (by decide)

/-- Witness for C6: `approve(1,2,10)` then `approve(1,2,5)` leaves the
allowance at 5, and the `(3,4)` entry untouched. -/
theorem approve_overwrite_witness :
    ((new 100 1).approve 1 2 10).1.allowance_of_or_zero 1 2 = 10 ∧
    (((new 100 1).approve 1 2 10).1.approve 1 2 5).1.allowance_of_or_zero 1 2 = 5 ∧
    (((new 100 1).approve 1 2 10).1.approve 1 2 5).1.allowance_of_or_zero 3 4
      = ((new 100 1).approve 1 2 10).1.allowance_of_or_zero 3 4 :=
  ⟨(approve_spec (new 100 1) 1 2 10).2.1,
   (approve_spec ((new 100 1).approve 1 2 10).1 1 2 5).2.1,
   (approve_spec ((new 100 1).approve 1 2 10).1 1 2 5).2.2.2.1 3 4 (by decide)⟩

/-- Witness for C7: a 30-token self-transfer on a 100-token account
succeeds and changes nothing observable. -/
theorem self_transfer_witness :
    ∃ s', (new 100 1).transfer 1 1 30 = some (s', Except.ok ()) ∧
      (∀ a, s'.balance_of a = (new 100 1).balance_of a) ∧
      (∀ o sp, s'.allowance o sp = (new 100 1).allowance o sp) ∧
      s'.total_supply = (new 100 1).total_supply :=
  self_transfer_noop (new 100 1) 1 30 (by decide) (by decide)

/-- Witness for C8: `new 2022 1` matches Scenario A plus zero balances and
allowances elsewhere. -/
theorem new_spec_witness :
    (new 2022 1).total_supply = 2022 ∧ (new 2022 1).balance_of 1 = 2022 ∧
      (new 2022 1).balance_of 0 = 0 ∧ (new 2022 1).allowance 1 0 = 0 :=
  ⟨(new_spec 2022 1).1, (new_spec 2022 1).2.1,
   (new_spec 2022 1).2.2.1 0 (by decide), (new_spec 2022 1).2.2.2 1 0⟩

/-- Witness for C9: the 10-token transfer of Scenario B leaves
`total_supply` at 100. -/
theorem total_supply_constant_witness :
    ({ total_supply := 100, balances := [(1, 90), (0, 10)], allowances := [] } :
        ContractsInkErc20).total_supply = (new 100 1).total_supply :=
  (total_supply_constant (new 100 1)).2.1 1 0 10
    { total_supply := 100, balances := [(1, 90), (0, 10)], allowances := [] }
    (Except.ok ()) rfl

/-- Witness for C10: zero-amount `transfer` from the absent account 0 and
zero-amount `transfer_from` with the never-set allowance `(3, 0)` both
succeed on the fresh ledger and change nothing observable. -/
theorem zero_amount_witness :
    (∃ s', (new 100 1).transfer 0 2 0 = some (s', Except.ok ()) ∧
        (∀ a, s'.balance_of a = (new 100 1).balance_of a) ∧
        (∀ o sp, s'.allowance o sp = (new 100 1).allowance o sp) ∧
        s'.total_supply = (new 100 1).total_supply) ∧
    (∃ s', (new 100 1).transfer_from 0 3 2 0 = some (s', Except.ok ()) ∧
        (∀ a, s'.balance_of a = (new 100 1).balance_of a) ∧
        (∀ o sp, s'.allowance o sp = (new 100 1).allowance o sp) ∧
        s'.total_supply = (new 100 1).total_supply) :=
  zero_amount_transfer_ok (new 100 1) 0 3 2 (by
    intro a
    rw [balance_of_or_zero_new]
    split_ifs
    · decide
    · decide)

end ContractsInkErc20
